import Mathlib

/-!
Shallow embedding of `web_demo/vllm_tools/model_weight_file/modeling_whale.py`
(the "Whale" audio encoder) and proofs about it.

Tensors carrying real values are modelled as index functions together with
explicit shape data; Python lists/axes that the code slices are modelled as
Lean `List`s; fallible calls return `Except`; float arithmetic is modelled
over `ℝ`.
-/

namespace Whale

/-- Module-level constant `has_flash_attn = False` (line 52 of the source:
the import of `FlashAttention` is commented out). -/
def has_flash_attn : Bool := false

/-- The configuration fields of `WhaleConfig` that `modeling_whale.py` reads
(the config class itself lives outside this file; fields inferred from use). -/
structure WhaleConfig where
  hidden_size : Nat
  num_attention_heads : Nat
  max_position_embeddings : Nat
  input_dim : Nat
  num_channels : Nat
  use_flash_attn : Bool
  qk_normalization : Bool
  use_relative_pe : Bool
  layer_norm_eps : ℝ

/-- A rank-3 tensor `(batch, time, dim)` as an index function with shape data. -/
structure Tensor3 where
  batch : Nat
  time : Nat
  dim : Nat
  val : Nat → Nat → Nat → ℝ

/-! ## WhaleConv2dSubsampling4 -/

/-- Output length of one dimension of `nn.Conv2d(kernel_size=3, stride=2)`
with no padding: `(t - 3) / 2 + 1` (PyTorch requires `3 ≤ t`). -/
def conv2dK3S2Out (t : Nat) : Nat := (t - 3) / 2 + 1

/-- Time dimension after `WhaleConv2dSubsampling4.conv_in`: two stacked
kernel-3 stride-2 unpadded convolutions along the time axis. -/
def subsampledTime (t : Nat) : Nat := conv2dK3S2Out (conv2dK3S2Out t)

/-- The Python slice `l[2::2]`: elements at indices 2, 4, 6, …. -/
def sliceFrom2Step2 (l : List α) : List α :=
  everySecond (l.drop 2)
where
  /-- elements at even positions of a list -/
  everySecond : List α → List α
  | [] => []
  | [a] => [a]
  | a :: _ :: rest => a :: everySecond rest

/-- A boolean mask of shape `(batch, d₁, time)` as nested lists
(axis 0 outermost). -/
abbrev Mask3 := List (List (List Bool))

/-- The mask value returned by `WhaleConv2dSubsampling4.forward`:
`x_mask[:, 2::2][:, 2::2]` — note both subscripts slice axis 1. -/
def subsamplingMaskOut (m : Mask3) : Mask3 :=
  (m.map sliceFrom2Step2).map sliceFrom2Step2

/-- The mask downsampling described by the forward method's own docstring
("Subsampled mask (#batch, 1, time')"): the same double slice taken along
the time axis (axis 2). -/
def subsamplingMaskDocstring (m : Mask3) : Mask3 :=
  (m.map (List.map sliceFrom2Step2)).map (List.map sliceFrom2Step2)

/-! ## WhalePositionalEncoding and RelPositionalEncoding -/

/-- Element `i` of the frequency vector, `div_term[i] = exp((2i) · (−(ln 10000 / d_model)))`:
that is, of
`torch.exp(torch.arange(0, d_model, 2) * -(math.log(10000.0) / d_model))`. -/
noncomputable def div_term (d i : Nat) : ℝ :=
  Real.exp ((2 * i : Nat) * (-(Real.log 10000 / d)))

/-- Entry `(pos, k)` of the table built in `WhalePositionalEncoding.__init__`:
`pe[:, 0::2] = sin(position * div_term)`, `pe[:, 1::2] = cos(position * div_term)`,
so column `2i` holds `sin(pos · div_term i)` and column `2i+1` holds
`cos(pos · div_term i)`. -/
noncomputable def peVal (d : Nat) (pos k : Nat) : ℝ :=
  if k % 2 = 0 then Real.sin (pos * div_term d (k / 2))
  else Real.cos (pos * div_term d (k / 2))

/-- The precomputed table `self.pe` of shape `(max_len, d_model)`
(before the final `unsqueeze(0)`), a pure function of position and
dimension index. -/
noncomputable def peTable (d maxLen : Nat) : List (List ℝ) :=
  (List.range maxLen).map fun pos => (List.range d).map fun k => peVal d pos k

/-- The state a positional-encoding module carries that the claims need:
`d_model = config.hidden_size` and `max_len = config.max_position_embeddings`. -/
structure PosEnc where
  d_model : Nat
  max_len : Nat

/-- The scale `self.xscale = math.sqrt(self.d_model)`. -/
noncomputable def xscale (m : PosEnc) : ℝ := Real.sqrt m.d_model

/-- The slice `self.pe[:, offset : offset + n]` (leading batch axis dropped),
with Python slicing semantics: it silently clamps to the table, never fails. -/
noncomputable def peSlice (m : PosEnc) (offset n : Nat) : List (List ℝ) :=
  ((peTable m.d_model m.max_len).drop offset).take n

/-- The `assert` in the absolute encoder raises `AssertionError`. -/
inductive PosEncError
  | assertionError
deriving DecidableEq

/-- Method `WhalePositionalEncoding.forward`: asserts `offset + x.size(1) < max_len`,
then returns `(dropout(x * xscale + pos_emb), dropout(pos_emb))`, the
positional slice broadcast over the batch axis. `drop` is the module's
`self.dropout` (elementwise). -/
noncomputable def WhalePositionalEncoding.forward (m : PosEnc) (drop : ℝ → ℝ)
    (x : Tensor3) (offset : Nat) : Except PosEncError (Tensor3 × List (List ℝ)) :=
  if m.max_len ≤ offset + x.time then .error .assertionError
  else
    .ok (⟨x.batch, x.time, x.dim,
          fun b t i => drop (x.val b t i * xscale m + peVal m.d_model (offset + t) i)⟩,
         (peSlice m offset x.time).map (List.map drop))

/-- Method `WhalePositionalEncoding.position_encoding` (streaming accessor):
asserts `offset + size < max_len`, then returns `dropout(pe[:, offset:offset+size])`. -/
noncomputable def WhalePositionalEncoding.position_encoding (m : PosEnc) (drop : ℝ → ℝ)
    (offset size : Nat) : Except PosEncError (List (List ℝ)) :=
  if m.max_len ≤ offset + size then .error .assertionError
  else .ok ((peSlice m offset size).map (List.map drop))

/-- Method `RelPositionalEncoding.forward`: no assertion; scales the input by
`xscale`, slices `pe[:, offset : offset + x.size(1)]`, and returns
`(dropout(x'), dropout(pos_emb))` without adding the slice to the input. -/
noncomputable def RelPositionalEncoding.forward (m : PosEnc) (drop : ℝ → ℝ)
    (x : Tensor3) (offset : Nat) : Tensor3 × List (List ℝ) :=
  (⟨x.batch, x.time, x.dim, fun b t i => drop (x.val b t i * xscale m)⟩,
   (peSlice m offset x.time).map (List.map drop))

/-! ## WhaleAttention -/

/-- Weight matrix and bias vector of an `nn.Linear` layer, as index functions
(their values come from the framework's random initialisation, which the
embedding takes as an input). -/
structure Linear where
  weight : Nat → Nat → ℝ
  bias : Nat → ℝ

/-- Application of `nn.Linear` with `inDim` input features to one feature
vector: `(W · v + b) o`. -/
noncomputable def Linear.apply (L : Linear) (inDim : Nat) (v : Nat → ℝ) (o : Nat) : ℝ :=
  (∑ i ∈ Finset.range inDim, L.weight o i * v i) + L.bias o

/-- Application of a bias-free `nn.Linear` (used for `self.linear_pos`). -/
noncomputable def linearNoBias (W : Nat → Nat → ℝ) (inDim : Nat) (v : Nat → ℝ) (o : Nat) : ℝ :=
  ∑ i ∈ Finset.range inDim, W o i * v i

/-- Learnable parameters of an `nn.LayerNorm`. -/
structure LayerNormParams where
  gamma : Nat → ℝ
  beta : Nat → ℝ

/-- `nn.LayerNorm` over a feature vector of width `dim` with epsilon `eps`. -/
noncomputable def layerNorm (p : LayerNormParams) (eps : ℝ) (dim : Nat)
    (v : Nat → ℝ) (i : Nat) : ℝ :=
  let mean := (∑ j ∈ Finset.range dim, v j) / dim
  let var := (∑ j ∈ Finset.range dim, (v j - mean) ^ 2) / dim
  (v i - mean) / Real.sqrt (var + eps) * p.gamma i + p.beta i

/-- The randomly initialised parameters `WhaleAttention.__init__` creates
(`linear_q/k/v/out`, the optional `q_norm`/`k_norm`, and the relative-PE
parameters `linear_pos`, `pos_bias_u`, `pos_bias_v`). -/
structure AttnWeights where
  linear_q : Linear
  linear_k : Linear
  linear_v : Linear
  linear_out : Linear
  q_norm : LayerNormParams
  k_norm : LayerNormParams
  linear_pos : Nat → Nat → ℝ
  pos_bias_u : Nat → Nat → ℝ
  pos_bias_v : Nat → Nat → ℝ

/-- The attributes of a successfully constructed `WhaleAttention` module. -/
structure WhaleAttention where
  embed_dim : Nat
  num_heads : Nat
  head_dim : Nat
  use_flash_attn : Bool
  qk_normalization : Bool
  use_relative_pe : Bool
  layer_norm_eps : ℝ
  w : AttnWeights

/-- Failures `WhaleAttention.__init__` can raise: `embed_dim // 0` raises
`ZeroDivisionError`; the explicit divisibility check raises `ValueError`;
reaching `FlashAttention(...)` would raise `NameError` because its import
is commented out. -/
inductive AttnInitError
  | zeroDivisionError
  | valueErrorNotDivisible
  | nameErrorFlashAttention
deriving DecidableEq

/-- Constructor `WhaleAttention.__init__`. The second component of the result
records whether the fallback warning
`'Warning: Flash Attention is not available, ...'` was printed (it is printed
before the divisibility check, so it is reported even when construction then
fails). -/
def mkWhaleAttention (cfg : WhaleConfig) (w : AttnWeights) :
    Except AttnInitError WhaleAttention × Bool :=
  let use_fa := cfg.use_flash_attn && has_flash_attn
  let warned := cfg.use_flash_attn && !has_flash_attn
  let res : Except AttnInitError WhaleAttention :=
    if cfg.num_attention_heads = 0 then .error .zeroDivisionError
    else
      let head_dim := cfg.hidden_size / cfg.num_attention_heads
      if head_dim * cfg.num_attention_heads ≠ cfg.hidden_size then
        .error .valueErrorNotDivisible
      else if use_fa then .error .nameErrorFlashAttention
      else
        .ok { embed_dim := cfg.hidden_size, num_heads := cfg.num_attention_heads,
              head_dim := head_dim, use_flash_attn := use_fa,
              qk_normalization := cfg.qk_normalization,
              use_relative_pe := cfg.use_relative_pe,
              layer_norm_eps := cfg.layer_norm_eps, w := w }
  (res, warned)

/-- The scale `self.scale = self.head_dim ** -0.5`. -/
noncomputable def attnScale (a : WhaleAttention) : ℝ := (a.head_dim : ℝ) ^ (-(1 / 2 : ℝ))

/-- Failures of `WhaleAttention`'s forward-pass paths: `_naive_attn` with
relative PE enabled dereferences `pos_embeds.size(0)` (a `TypeError` /
`AttributeError` when `pos_embeds is None`), and `_flash_attn` starts with
`self.qkv(x)` although no `qkv` submodule is ever created
(`AttributeError`). -/
inductive AttnRunError
  | noneTypeErrorPosEmbeds
  | attributeErrorQkv
deriving DecidableEq

/-- Method `WhaleAttention._naive_attn`. `drop` is the module's `self.attn_drop`
(elementwise; the identity in eval mode). The attention mask is modelled after
its broadcast, as a `(batch, key)` predicate; `masked_fill(~mask, -inf)`
followed by `softmax` is modelled over `ℝ` by giving masked positions zero
weight (a fully masked row divides by zero, which `ℝ` sends to `0` where
floats produce `NaN`). -/
noncomputable def naiveAttn (a : WhaleAttention) (drop : ℝ → ℝ) (x : Tensor3)
    (attention_mask : Option (Nat → Nat → Bool)) (pos_embeds : Option Tensor3) :
    Except AttnRunError Tensor3 :=
  let D := a.head_dim
  let q0 : Nat → Nat → Nat → ℝ := fun b n => Linear.apply a.w.linear_q a.embed_dim (x.val b n)
  let k0 : Nat → Nat → Nat → ℝ := fun b n => Linear.apply a.w.linear_k a.embed_dim (x.val b n)
  let v0 : Nat → Nat → Nat → ℝ := fun b n => Linear.apply a.w.linear_v a.embed_dim (x.val b n)
  -- reshape(B, N, H, D).permute(0, 2, 1, 3): per-head views (b, h, n, d)
  let vh : Nat → Nat → Nat → Nat → ℝ := fun b h n dd => v0 b n (h * D + dd)
  -- optional flatten → LayerNorm → reshape on q and k
  let qn : Nat → Nat → Nat → Nat → ℝ :=
    if a.qk_normalization then
      fun b h n dd => layerNorm a.w.q_norm a.layer_norm_eps a.embed_dim (q0 b n) (h * D + dd)
    else fun b h n dd => q0 b n (h * D + dd)
  let kn : Nat → Nat → Nat → Nat → ℝ :=
    if a.qk_normalization then
      fun b h n dd => layerNorm a.w.k_norm a.layer_norm_eps a.embed_dim (k0 b n) (h * D + dd)
    else fun b h n dd => k0 b n (h * D + dd)
  match a.use_relative_pe, pos_embeds with
  | true, none => .error .noneTypeErrorPosEmbeds
  | true, some pe =>
      -- p = linear_pos(pos_embeds).view(B', -1, H, D).transpose(1, 2),
      -- broadcast over the batch axis when pos_embeds has batch 1
      let p : Nat → Nat → Nat → Nat → ℝ := fun b h m dd =>
        linearNoBias a.w.linear_pos a.embed_dim (pe.val (if pe.batch = 1 then 0 else b) m)
          (h * D + dd)
      let qu : Nat → Nat → Nat → Nat → ℝ := fun b h n dd => qn b h n dd + a.w.pos_bias_u h dd
      let qv : Nat → Nat → Nat → Nat → ℝ := fun b h n dd => qn b h n dd + a.w.pos_bias_v h dd
      let matrix_ac : Nat → Nat → Nat → Nat → ℝ := fun b h i j =>
        ∑ dd ∈ Finset.range D, qu b h i dd * kn b h j dd
      let matrix_bd : Nat → Nat → Nat → Nat → ℝ := fun b h i j =>
        ∑ dd ∈ Finset.range D, qv b h i dd * p b h j dd
      let scores : Nat → Nat → Nat → Nat → ℝ := fun b h i j =>
        (matrix_ac b h i j + matrix_bd b h i j) * attnScale a
      .ok (attnFinish a drop x scores attention_mask vh)
  | false, _ =>
      let scores : Nat → Nat → Nat → Nat → ℝ := fun b h i j =>
        ∑ dd ∈ Finset.range D, (qn b h i dd * attnScale a) * kn b h j dd
      .ok (attnFinish a drop x scores attention_mask vh)
where
  /-- the shared tail of `_naive_attn`: mask, softmax, dropout, weighted sum
  over values, reshape, output projection -/
  attnFinish (a : WhaleAttention) (drop : ℝ → ℝ) (x : Tensor3)
      (scores : Nat → Nat → Nat → Nat → ℝ)
      (attention_mask : Option (Nat → Nat → Bool))
      (vh : Nat → Nat → Nat → Nat → ℝ) : Tensor3 :=
    let N := x.time
    let D := a.head_dim
    let allowed : Nat → Nat → Bool := fun b j =>
      match attention_mask with
      | none => true
      | some msk => msk b j
    let weight : Nat → Nat → Nat → Nat → ℝ := fun b h i j =>
      if allowed b j then Real.exp (scores b h i j) else 0
    let probs : Nat → Nat → Nat → Nat → ℝ := fun b h i j =>
      drop (weight b h i j / ∑ l ∈ Finset.range N, weight b h i l)
    -- (attn @ v).transpose(1, 2).reshape(B, N, C), then linear_out
    let ctx : Nat → Nat → Nat → ℝ := fun b n c =>
      ∑ j ∈ Finset.range N, probs b (c / D) n j * vh b (c / D) j (c % D)
    ⟨x.batch, x.time, x.dim, fun b n o => Linear.apply a.w.linear_out a.embed_dim (ctx b n) o⟩

/-- Method `WhaleAttention._flash_attn`: its first statement `self.qkv(x)`
dereferences a submodule that `__init__` never creates, so the path fails
with `AttributeError` before any computation. -/
noncomputable def flashAttn (_a : WhaleAttention) (_x : Tensor3) : Except AttnRunError Tensor3 :=
  .error .attributeErrorQkv

/-- Method `WhaleAttention.forward`:
`self._naive_attn(...) if not self.use_flash_attn else self._flash_attn(hidden_states)`. -/
noncomputable def WhaleAttention.forward (a : WhaleAttention) (drop : ℝ → ℝ)
    (hidden_states : Tensor3) (attention_mask : Option (Nat → Nat → Bool))
    (pos_embeds : Option Tensor3) : Except AttnRunError Tensor3 :=
  if a.use_flash_attn then flashAttn a hidden_states
  else naiveAttn a drop hidden_states attention_mask pos_embeds

/-! ## WhaleAudioModel -/

/-- An input tensor of arbitrary rank: its shape, and its entries read
through a multi-index (only consulted when the shape is rank 3). -/
structure NDTensor where
  shape : List Nat
  val : List Nat → ℝ

/-- Failures of `WhaleAudioModel.forward`: the two explicit `ValueError`s
(`'You have to specify pixel_values or pixel_embeds'` and
`f'wrong pixel_values size: ...'`), and the `UnboundLocalError` on the
`pixel_embeds` branch — that branch never assigns the local `pos_embeds`,
yet the call `self.encoder(..., pos_embeds=pos_embeds, ...)` reads it. -/
inductive AudioModelError
  | valueErrorSpecifyInput
  | valueErrorWrongSize
  | unboundLocalPosEmbeds
deriving DecidableEq

/-- Whether an `AudioModelError` is one of the invalid-argument
(`ValueError`) conditions. -/
def AudioModelError.isValueError : AudioModelError → Bool
  | .valueErrorSpecifyInput => true
  | .valueErrorWrongSize => true
  | .unboundLocalPosEmbeds => false

/-- The pair `(last_hidden_state, pooler_output)` that a successful
`WhaleAudioModel.forward` returns (the other `BaseModelOutputWithPooling`
fields are pass-throughs of encoder bookkeeping the claims do not touch). -/
structure AudioModelOutput where
  last_hidden_state : Tensor3
  pooler_output : Nat → Nat → ℝ

/-- Method `WhaleAudioModel.forward`. The submodules `self.subsampling`,
`self.embeddings` (returning `(hidden_states, pos_embeds)`) and
`self.encoder` (of which the claims use only `last_hidden_state`) enter as
function parameters; the dispatch, validation, and output assembly are the
source's. -/
def WhaleAudioModel.forward
    (subsampling : Tensor3 → Mask3 → Tensor3 × Mask3)
    (embeddings : Tensor3 → Tensor3 × Tensor3)
    (encoder : Tensor3 → Mask3 → Tensor3 → Tensor3)
    (input_features : Option NDTensor) (attention_mask : Mask3)
    (pixel_embeds : Option Tensor3) : Except AudioModelError AudioModelOutput :=
  if input_features.isNone && pixel_embeds.isNone then .error .valueErrorSpecifyInput
  else match pixel_embeds with
    | some _pe =>
        -- hidden_states = pixel_embeds, but `pos_embeds` stays unassigned,
        -- so the encoder call raises UnboundLocalError
        .error .unboundLocalPosEmbeds
    | none =>
        match input_features with
        | none => .error .valueErrorSpecifyInput  -- unreachable: caught above
        | some f =>
            if f.shape.length = 3 then
              let x3 : Tensor3 := ⟨f.shape.getD 0 0, f.shape.getD 1 0, f.shape.getD 2 0,
                                   fun b t i => f.val [b, t, i]⟩
              let sub := subsampling x3 attention_mask
              let embOut := embeddings sub.1
              let lhs := encoder embOut.1 sub.2 embOut.2
              .ok ⟨lhs, fun b i => lhs.val b 0 i⟩
            else .error .valueErrorWrongSize

end Whale

namespace Whale

/-! ### Facts about the subsampled time dimension -/

theorem conv2dK3S2Out_eq (t : Nat) (h : 3 ≤ t) : conv2dK3S2Out t = (t - 1) / 2 := by
  unfold conv2dK3S2Out
  omega

theorem subsampledTime_eq (t : Nat) (h : 7 ≤ t) : subsampledTime t = (t - 3) / 4 := by
  unfold subsampledTime conv2dK3S2Out
  omega

/-! ### Positional-encoding lemmas -/

theorem getD_range_map {α : Type} (f : Nat → α) (n j : Nat) (d : α) :
    (((List.range n).map f).getD j d) = if j < n then f j else d := by
  rcases Nat.lt_or_ge j n with h | h
  · rw [List.getD_eq_getElem?_getD, List.getElem?_map, List.getElem?_range h]
    simp [h]
  · rw [List.getD_eq_getElem?_getD, List.getElem?_map,
        List.getElem?_eq_none (by simpa using h)]
    simp [Nat.not_lt.mpr h]

theorem peTable_entry (d maxLen pos k : Nat) (hpos : pos < maxLen) (hk : k < d) :
    ((peTable d maxLen).getD pos []).getD k 0 = peVal d pos k := by
  rw [peTable, getD_range_map, if_pos hpos, getD_range_map, if_pos hk]

theorem div_term_eq_rpow (d i : Nat) :
    div_term d i = (10000 : ℝ) ^ (-((2 * i : ℝ) / d)) := by
  rw [div_term, Real.rpow_def_of_pos (by norm_num)]
  congr 1
  push_cast
  ring

theorem mul_div_term_eq (d pos i : Nat) :
    (pos : ℝ) * div_term d i = pos / (10000 : ℝ) ^ ((2 * i : ℝ) / d) := by
  rw [div_term_eq_rpow, Real.rpow_neg (by norm_num), div_eq_mul_inv]
  ring

/-! ## Claim C2 — subsampled time dimension -/

/-- C2 (counterexample): an input of time dimension 8 is long enough for both
convolutions, yet the subsampled time dimension is `1`, not `8 / 4 = 2`. -/
theorem c2_counterexample : 7 ≤ 8 ∧ subsampledTime 8 ≠ 8 / 4 := by decide

/-- C2 (amended): for every input time dimension large enough for the two
kernel-3 stride-2 unpadded convolutions (`7 ≤ t`), the feature tensor
returned by `WhaleConv2dSubsampling4.forward` has time dimension
`(t - 3) / 4`, which equals `t / 4` only when `t % 4 = 3`. -/
theorem c2_subsampled_time_floor (t : Nat) (h : 7 ≤ t) :
    subsampledTime t = (t - 3) / 4 :=
  subsampledTime_eq t h

/-- C2 witness at `t = 11`. -/
theorem c2_witness : 7 ≤ 11 ∧ subsampledTime 11 = (11 - 3) / 4 :=
  ⟨by decide, c2_subsampled_time_floor 11 (by decide)⟩

/-! ## Claim C3 — mask downsampling -/

/-- C3 (code evaluated at the failing input): for a mask of shape
`(1, 1, 8)`, `x_mask[:, 2::2][:, 2::2]` slices the singleton axis 1 twice
and returns `[[]]` — shape `(1, 0, 8)` — while the time-axis downsampling
promised by the method's own docstring returns `[[[true]]]`, shape
`(1, 1, 1)`. -/
theorem c3_mask_slices_axis1 :
    subsamplingMaskOut [[[true, true, true, true, true, true, true, true]]] = [[]]
    ∧ subsamplingMaskDocstring [[[true, true, true, true, true, true, true, true]]]
        = [[[true]]] := by
  decide

/-! ## Claim C4 — positional-encoding bounds -/

/-- C4 (counterexample): with `max_len = 4` and a sequence of length 5 at
offset 0 we have `offset + size ≥ max_len`, yet `RelPositionalEncoding.forward`
does not fail with a bounds violation: it returns normally, with the
positional slice silently truncated to the 4 rows of the table. -/
theorem c4_counterexample :
    (⟨2, 4⟩ : PosEnc).max_len ≤ 0 + (⟨1, 5, 2, fun _ _ _ => 0⟩ : Tensor3).time
    ∧ (RelPositionalEncoding.forward ⟨2, 4⟩ id ⟨1, 5, 2, fun _ _ _ => 0⟩ 0).2.length = 4 := by
  refine ⟨by decide, ?_⟩
  simp [RelPositionalEncoding.forward, peSlice, peTable]

/-- C4 (amended): the absolute encoder's forward pass and the streaming
`position_encoding` accessor fail with the assertion exactly when
`offset + size ≥ max_len` and succeed otherwise; the relative variant's
forward pass performs no bounds check at all — it always returns, silently
truncating the positional slice to the table. -/
theorem c4_positional_bounds (m : PosEnc) (drop : ℝ → ℝ) (x : Tensor3)
    (offset size : Nat) :
    ((∃ v, WhalePositionalEncoding.forward m drop x offset = .ok v)
        ↔ offset + x.time < m.max_len)
    ∧ ((∃ v, WhalePositionalEncoding.position_encoding m drop offset size = .ok v)
        ↔ offset + size < m.max_len)
    ∧ (RelPositionalEncoding.forward m drop x offset).2.length
        = min x.time (m.max_len - offset) := by
  refine ⟨?_, ?_, ?_⟩
  · by_cases hb : m.max_len ≤ offset + x.time
    · rw [WhalePositionalEncoding.forward, if_pos hb]
      exact iff_of_false (by rintro ⟨v, hv⟩; cases hv) (by omega)
    · rw [WhalePositionalEncoding.forward, if_neg hb]
      exact iff_of_true ⟨_, rfl⟩ (by omega)
  · by_cases hb : m.max_len ≤ offset + size
    · rw [WhalePositionalEncoding.position_encoding, if_pos hb]
      exact iff_of_false (by rintro ⟨v, hv⟩; cases hv) (by omega)
    · rw [WhalePositionalEncoding.position_encoding, if_neg hb]
      exact iff_of_true ⟨_, rfl⟩ (by omega)
  · simp [RelPositionalEncoding.forward, peSlice, peTable]

/-! ## Claim C6 — table values -/

/-- C6: for every `pos < max_len` and `2i < d` with `d` even (for odd `d`
the assignment `pe[:, 1::2] = cos(...)` itself fails at construction, so no
table exists), the precomputed table satisfies
`PE[pos, 2i] = sin(pos / 10000^(2i/d))` and
`PE[pos, 2i+1] = cos(pos / 10000^(2i/d))`; the entries are pure functions of
the position and dimension index — no learned parameter occurs in `peVal`. -/
theorem c6_pe_table_values (d maxLen pos i : Nat) (heven : d % 2 = 0)
    (hpos : pos < maxLen) (hi : 2 * i < d) :
    ((peTable d maxLen).getD pos []).getD (2 * i) 0
        = Real.sin (pos / (10000 : ℝ) ^ ((2 * i : ℝ) / d))
    ∧ ((peTable d maxLen).getD pos []).getD (2 * i + 1) 0
        = Real.cos (pos / (10000 : ℝ) ^ ((2 * i : ℝ) / d)) := by
  rw [peTable_entry d maxLen pos (2 * i) hpos (by omega),
      peTable_entry d maxLen pos (2 * i + 1) hpos (by omega)]
  unfold peVal
  constructor
  · rw [if_pos (by omega), Nat.mul_div_cancel_left i (by norm_num : 0 < 2),
        mul_div_term_eq]
  · rw [if_neg (by omega), (by omega : (2 * i + 1) / 2 = i), mul_div_term_eq]

/-- C6 witness at `d = 4`, `max_len = 2`, `pos = 1`, `i = 1`. -/
theorem c6_witness :
    ((peTable 4 2).getD 1 []).getD (2 * 1) 0
        = Real.sin (((1 : Nat) : ℝ) / (10000 : ℝ) ^ ((2 * ((1 : Nat) : ℝ)) / ((4 : Nat) : ℝ)))
    ∧ ((peTable 4 2).getD 1 []).getD (2 * 1 + 1) 0
        = Real.cos (((1 : Nat) : ℝ) / (10000 : ℝ) ^ ((2 * ((1 : Nat) : ℝ)) / ((4 : Nat) : ℝ))) :=
  c6_pe_table_values 4 2 1 1 (by decide) (by decide) (by decide)

/-! ## Claim C7 — relative variant returns the slice separately -/

/-- C7: `RelPositionalEncoding.forward` returns exactly the pair
`(dropout(x · √hidden_size), dropout(pe[:, offset : offset + time]))`:
the input is scaled by `sqrt(hidden_size)`, the positional slice is handed
back as a separate tensor, and the slice is never added to the input. -/
theorem c7_rel_forward_returns_pair (m : PosEnc) (drop : ℝ → ℝ) (x : Tensor3)
    (offset : Nat) :
    RelPositionalEncoding.forward m drop x offset
      = (⟨x.batch, x.time, x.dim,
          fun b t i => drop (x.val b t i * Real.sqrt m.d_model)⟩,
         (((peTable m.d_model m.max_len).drop offset).take x.time).map (List.map drop)) :=
  rfl

/-! ## Claim C1 — input validation of WhaleAudioModel.forward -/

/-- C1 (counterexample): supplying both a rank-3 `input_features` and
`pixel_embeds` is "not exactly one" input, yet `forward` raises no
invalid-argument error: the `pixel_embeds` branch is taken and the call dies
on the unassigned local `pos_embeds`, which is not a `ValueError`. -/
theorem c1_counterexample :
    WhaleAudioModel.forward (fun x m => (x, m)) (fun x => (x, x)) (fun h _ _ => h)
        (some ⟨[1, 2, 3], fun _ => 0⟩) [] (some ⟨1, 2, 3, fun _ _ _ => 0⟩)
      = .error .unboundLocalPosEmbeds
    ∧ AudioModelError.isValueError .unboundLocalPosEmbeds = false :=
  ⟨rfl, rfl⟩

/-- C1 (amended): `WhaleAudioModel.forward` fails with an invalid-argument
`ValueError` exactly when both inputs are unset, or when `pixel_embeds` is
unset and the raw `input_features` is not rank 3. Supplying both inputs
triggers no invalid-argument validation: `pixel_embeds` takes precedence
(and that branch then fails with `UnboundLocalError`, not a validation
error). -/
theorem c1_forward_validation
    (subsampling : Tensor3 → Mask3 → Tensor3 × Mask3)
    (embeddings : Tensor3 → Tensor3 × Tensor3)
    (encoder : Tensor3 → Mask3 → Tensor3 → Tensor3)
    (input_features : Option NDTensor) (attention_mask : Mask3)
    (pixel_embeds : Option Tensor3) :
    (∃ e, WhaleAudioModel.forward subsampling embeddings encoder
            input_features attention_mask pixel_embeds = .error e
          ∧ e.isValueError = true)
      ↔ ((input_features = none ∧ pixel_embeds = none)
          ∨ (pixel_embeds = none
              ∧ ∃ f, input_features = some f ∧ f.shape.length ≠ 3)) := by
  cases pixel_embeds with
  | some pe =>
      simp [WhaleAudioModel.forward, AudioModelError.isValueError]
  | none =>
      cases input_features with
      | none =>
          simp [WhaleAudioModel.forward, AudioModelError.isValueError]
      | some f =>
          by_cases h3 : f.shape.length = 3
          · simp [WhaleAudioModel.forward, h3, AudioModelError.isValueError]
          · simp [WhaleAudioModel.forward, h3, AudioModelError.isValueError]

/-! ## Claim C8 — pooled output -/

/-- The encoder output computed on the raw-features path of
`WhaleAudioModel.forward`: subsampling, then embedding, then the encoder on
the hidden states, the subsampled mask and the positional embeddings. -/
def rawPathEncoderOutput
    (subsampling : Tensor3 → Mask3 → Tensor3 × Mask3)
    (embeddings : Tensor3 → Tensor3 × Tensor3)
    (encoder : Tensor3 → Mask3 → Tensor3 → Tensor3)
    (f : NDTensor) (attention_mask : Mask3) : Tensor3 :=
  let x3 : Tensor3 := ⟨f.shape.getD 0 0, f.shape.getD 1 0, f.shape.getD 2 0,
                       fun b t i => f.val [b, t, i]⟩
  let sub := subsampling x3 attention_mask
  let embOut := embeddings sub.1
  encoder embOut.1 sub.2 embOut.2

/-- C8: every successful `WhaleAudioModel.forward` call returns
`pooler_output = last_hidden_state[:, 0, :]`, and the last hidden state it
returns is the encoder's output passed through unchanged. -/
theorem c8_pooler_is_first_position
    (subsampling : Tensor3 → Mask3 → Tensor3 × Mask3)
    (embeddings : Tensor3 → Tensor3 × Tensor3)
    (encoder : Tensor3 → Mask3 → Tensor3 → Tensor3)
    (input_features : Option NDTensor) (attention_mask : Mask3)
    (pixel_embeds : Option Tensor3) (out : AudioModelOutput)
    (h : WhaleAudioModel.forward subsampling embeddings encoder
          input_features attention_mask pixel_embeds = .ok out) :
    (∀ b i, out.pooler_output b i = out.last_hidden_state.val b 0 i)
    ∧ ∃ f, input_features = some f ∧ f.shape.length = 3
        ∧ out.last_hidden_state
            = rawPathEncoderOutput subsampling embeddings encoder f attention_mask := by
  cases pixel_embeds with
  | some pe => simp [WhaleAudioModel.forward] at h
  | none =>
      cases input_features with
      | none => simp [WhaleAudioModel.forward] at h
      | some f =>
          by_cases h3 : f.shape.length = 3
          · simp [WhaleAudioModel.forward, h3] at h
            subst h
            refine ⟨fun b i => rfl, f, rfl, h3, ?_⟩
            simp [rawPathEncoderOutput, h3]
          · simp [WhaleAudioModel.forward, h3] at h

/-- Trivial collaborator instances for witnesses: identity-like submodules. -/
def subsWitness : Tensor3 → Mask3 → Tensor3 × Mask3 := fun x m => (x, m)

/-- Embedding collaborator used by witnesses. -/
def embWitness : Tensor3 → Tensor3 × Tensor3 := fun x => (x, x)

/-- Encoder collaborator used by witnesses. -/
def encWitness : Tensor3 → Mask3 → Tensor3 → Tensor3 := fun h _ _ => h

/-- A concrete rank-3 raw-features input. -/
def featWitness : NDTensor := ⟨[1, 2, 3], fun _ => 0⟩

/-- The output the witness call produces. -/
def outWitness : AudioModelOutput :=
  ⟨⟨1, 2, 3, fun b t i => featWitness.val [b, t, i]⟩,
   fun b i => featWitness.val [b, 0, i]⟩

/-- C8 witness at a concrete successful raw-features call. -/
theorem c8_witness :
    outWitness.pooler_output 0 0 = outWitness.last_hidden_state.val 0 0 0 :=
  (c8_pooler_is_first_position subsWitness embWitness encWitness
      (some featWitness) [] none outWitness rfl).1 0 0

/-! ## Claim C5 — head divisibility at construction -/

/-- C5: for every configuration with a positive head count, construction of
the attention module fails with the divisibility `ValueError` iff the head
count does not divide the embedding dimension, and every successfully
constructed module satisfies `head_dim * num_heads = embed_dim`. -/
theorem c5_head_divisibility (cfg : WhaleConfig) (w : AttnWeights)
    (hpos : 0 < cfg.num_attention_heads) :
    ((mkWhaleAttention cfg w).1 = .error .valueErrorNotDivisible
        ↔ ¬ cfg.num_attention_heads ∣ cfg.hidden_size)
    ∧ ∀ a, (mkWhaleAttention cfg w).1 = .ok a
        → a.head_dim * a.num_heads = a.embed_dim := by
  have hne : cfg.num_attention_heads ≠ 0 := Nat.pos_iff_ne_zero.mp hpos
  by_cases hdvd : cfg.num_attention_heads ∣ cfg.hidden_size
  · have heq : cfg.hidden_size / cfg.num_attention_heads * cfg.num_attention_heads
        = cfg.hidden_size := Nat.div_mul_cancel hdvd
    constructor
    · simp [mkWhaleAttention, hne, heq, has_flash_attn, hdvd]
    · intro a ha
      simp [mkWhaleAttention, hne, heq, has_flash_attn] at ha
      rw [← ha]
      exact heq
  · have hneq : cfg.hidden_size / cfg.num_attention_heads * cfg.num_attention_heads
        ≠ cfg.hidden_size := by
      intro h
      exact hdvd ⟨cfg.hidden_size / cfg.num_attention_heads,
        ((Nat.mul_comm cfg.num_attention_heads
            (cfg.hidden_size / cfg.num_attention_heads)).trans h).symm⟩
    constructor
    · simp [mkWhaleAttention, hne, hneq, hdvd]
    · intro a ha
      simp [mkWhaleAttention, hne, hneq] at ha

/-- A configuration with `hidden_size = 8`, `num_heads = 2`, flash attention
not requested. -/
def cfgWitnessNoFlash : WhaleConfig := ⟨8, 2, 5000, 80, 1, false, false, false, 0⟩

/-- Zero-initialised linear layer for witnesses. -/
def zeroLinear : Linear := ⟨fun _ _ => 0, fun _ => 0⟩

/-- Unit layer-norm parameters for witnesses. -/
def unitLayerNorm : LayerNormParams := ⟨fun _ => 1, fun _ => 0⟩

/-- Zero-initialised attention weights for witnesses. -/
def zeroAttnWeights : AttnWeights :=
  ⟨zeroLinear, zeroLinear, zeroLinear, zeroLinear, unitLayerNorm, unitLayerNorm,
   fun _ _ => 0, fun _ _ => 0, fun _ _ => 0⟩

/-- C5 witness at `hidden_size = 8`, `num_heads = 2`. -/
theorem c5_witness :
    (mkWhaleAttention cfgWitnessNoFlash zeroAttnWeights).1 = .error .valueErrorNotDivisible
      ↔ ¬ cfgWitnessNoFlash.num_attention_heads ∣ cfgWitnessNoFlash.hidden_size :=
  (c5_head_divisibility cfgWitnessNoFlash zeroAttnWeights (by decide)).1

/-! ## Claim C9 — fallback when the optimized kernel is unavailable -/

/-- C9: a configuration that requests flash attention while
`has_flash_attn = false` does not make construction fail on that account
(divisibility, the orthogonal C5 invariant any construction needs, is
assumed): the module is built, the fallback warning is printed,
`use_flash_attn` ends up `false`, and every forward call runs
`_naive_attn`. -/
theorem c9_flash_fallback (cfg : WhaleConfig) (w : AttnWeights)
    (hreq : cfg.use_flash_attn = true)
    (hpos : 0 < cfg.num_attention_heads)
    (hdvd : cfg.num_attention_heads ∣ cfg.hidden_size) :
    (mkWhaleAttention cfg w).2 = true
    ∧ ∃ a, (mkWhaleAttention cfg w).1 = .ok a
        ∧ a.use_flash_attn = false
        ∧ ∀ drop x msk pos, WhaleAttention.forward a drop x msk pos
            = naiveAttn a drop x msk pos := by
  have hne : cfg.num_attention_heads ≠ 0 := Nat.pos_iff_ne_zero.mp hpos
  have heq : cfg.hidden_size / cfg.num_attention_heads * cfg.num_attention_heads
      = cfg.hidden_size := Nat.div_mul_cancel hdvd
  refine ⟨by simp [mkWhaleAttention, hreq, has_flash_attn], ?_⟩
  refine ⟨{ embed_dim := cfg.hidden_size, num_heads := cfg.num_attention_heads,
            head_dim := cfg.hidden_size / cfg.num_attention_heads,
            use_flash_attn := false,
            qk_normalization := cfg.qk_normalization,
            use_relative_pe := cfg.use_relative_pe,
            layer_norm_eps := cfg.layer_norm_eps, w := w }, ?_, rfl, ?_⟩
  · simp [mkWhaleAttention, hne, heq, has_flash_attn]
  · intro drop x msk pos
    simp [WhaleAttention.forward]

/-- A configuration requesting flash attention, with valid divisibility. -/
def cfgWitnessFlash : WhaleConfig := ⟨8, 2, 5000, 80, 1, true, false, false, 0⟩

/-- C9 witness: the warning is printed for a flash-requesting config. -/
theorem c9_witness : (mkWhaleAttention cfgWitnessFlash zeroAttnWeights).2 = true :=
  (c9_flash_fallback cfgWitnessFlash zeroAttnWeights rfl (by decide) (by decide)).1

/-! ## Claim C10 — forward is exactly the naive path -/

/-- C10: `has_flash_attn` is statically `false` in this module, so every
successfully constructed `WhaleAttention` has `use_flash_attn = false`, and
its forward pass returns exactly the `_naive_attn` result on every input;
the `_flash_attn` path is unreachable. -/
theorem c10_forward_is_naive :
    has_flash_attn = false
    ∧ ∀ (cfg : WhaleConfig) (w : AttnWeights) (a : WhaleAttention) (warned : Bool),
        mkWhaleAttention cfg w = (.ok a, warned) →
          a.use_flash_attn = false
          ∧ ∀ drop x msk pos, WhaleAttention.forward a drop x msk pos
              = naiveAttn a drop x msk pos := by
  refine ⟨rfl, ?_⟩
  intro cfg w a warned h
  have hfa : a.use_flash_attn = false := by
    simp [mkWhaleAttention, has_flash_attn] at h
    split at h
    · simp at h
    · split at h
      · obtain ⟨h1, -⟩ := h
        injection h1 with h2
        subst h2
        rfl
      · simp at h
  refine ⟨hfa, ?_⟩
  intro drop x msk pos
  simp [WhaleAttention.forward, hfa]

/-- The module `mkWhaleAttention cfgWitnessNoFlash zeroAttnWeights` builds. -/
def attnWitness : WhaleAttention :=
  ⟨8, 2, 4, false, false, false, 0, zeroAttnWeights⟩

/-- A small concrete input tensor for the C10 witness. -/
def xWitness : Tensor3 := ⟨1, 1, 8, fun _ _ _ => 0⟩

/-- C10 witness at a concrete constructed module and input. -/
theorem c10_witness :
    WhaleAttention.forward attnWitness id xWitness none none
      = naiveAttn attnWitness id xWitness none none :=
  (c10_forward_is_naive.2 cfgWitnessNoFlash zeroAttnWeights attnWitness false rfl).2
    id xWitness none none

end Whale
